import Mathlib

/-!
Verification of the PyCurlBrowser repository (src/__init__.py, src/parsers.py)
against its natural-language specification.

The Python code is shallowly embedded: pure fragments become Lean functions,
the stateful multi-fetch scheduler becomes explicit state passing over a
`LoopState`, fallible code returns `Except PyErr`.  External collaborators
named by the spec (the pycurl transport, the lxml document engine, zlib,
hashlib's md5, the regexp engine) are passed in as function parameters, so
every theorem quantifies over their behaviour; the file-system "byte blob
plus JSON sidecar" storage capability is an association list keyed by
filename.
-/

namespace PCB

/-- Python exception kinds that the embedded code can raise. -/
inductive PyErr where
  | attributeError
  | typeError
  | keyError
  | indexError
  | ioError
  | valueError
  | nameError
  | cacheConfiguration
  | connectionsNumber
  deriving DecidableEq, Repr

/-- Python values appearing in the browser's dicts and Struct results
(`None`, strings, ints). -/
inductive PyVal where
  | none
  | str (s : String)
  | int (n : Int)
  deriving DecidableEq, Repr

/-- Python truthiness for the values we model. -/
def pyTruthy : PyVal → Bool
  | .none => false
  | .str s => s ≠ ""
  | .int n => n ≠ 0

/-- `str(v)` for the values we model. -/
def pyStr : PyVal → String
  | .none => "None"
  | .str s => s
  | .int n => toString n

/-- A Python dict key: either a string literal, or the `id` builtin function
object (which `multi_fetch` erroneously uses as a key in `if id in url_data`). -/
inductive PyKey where
  | str (s : String)
  | builtinId
  deriving DecidableEq, Repr

/-- A request dict as passed to `multi_fetch` (keys `"url"`, `"ref"`, `"id"`). -/
abbrev PyDict := List (PyKey × PyVal)

/-- `d[k]` — raises `KeyError` when the key is absent. -/
def pyGet : PyDict → PyKey → Except PyErr PyVal
  | [], _ => .error .keyError
  | (k', v) :: rest, k => if k' = k then .ok v else pyGet rest k

/-- `d.get(k, dflt)`. -/
def pyGetD : PyDict → PyKey → PyVal → PyVal
  | [], _, dflt => dflt
  | (k', v) :: rest, k, dflt => if k' = k then v else pyGetD rest k dflt

/-- All keys of the dict are plain strings (true of every dict a caller can
write literally, e.g. `{"url": ..., "id": ...}`). -/
def strKeyed (d : PyDict) : Bool :=
  d.all (fun p => match p.1 with | .str _ => true | .builtinId => false)

/-- String-keyed association lists stand in for Python dicts whose keys are
known to be strings (header dicts, the results mapping, kwargs). -/
def alistGet {α : Type} : List (String × α) → String → Option α
  | [], _ => Option.none
  | (k', v) :: rest, k => if k' = k then some v else alistGet rest k

/-- Python dict assignment `m[k] = v`: replace in place, or append. -/
def alistSet {α : Type} (m : List (String × α)) (k : String) (v : α) :
    List (String × α) :=
  match m with
  | [] => [(k, v)]
  | (k', v') :: rest =>
      if k' = k then (k', v) :: rest else (k', v') :: alistSet rest k v

/-- A `Struct(**entries)` result object: its attribute dict. -/
abbrev RStruct := List (String × PyVal)

/-- Attribute lookup on a Struct result (`r.name`); `Option.none` models the
attribute being absent (an access would raise AttributeError). -/
def attrGet (r : RStruct) (k : String) : Option PyVal := alistGet r k

/-- `Struct` construction as called: `Struct.__init__(self, **entries)` accepts
keyword arguments only; a positional argument (as in the oversize-URL branch
`Struct({'result': 'error'})`) raises TypeError before the body runs. -/
def structNew (posArgs : List PyDict) (kwArgs : RStruct) : Except PyErr RStruct :=
  if posArgs.isEmpty then .ok kwArgs else .error .typeError

/-! ### Response normalizer (`Browser.__normalize_data`) -/

/-- Python `s.split(sep)` for a one-character separator, over the character
list. -/
def splitOnCharList (c : Char) : List Char → List (List Char)
  | [] => [[]]
  | x :: xs =>
      let r := splitOnCharList c xs
      if x = c then [] :: r
      else
        match r with
        | y :: ys => (x :: y) :: ys
        | [] => [[x]]

/-- Python `s.strip()` (over the common whitespace characters
space/tab/CR/LF). -/
def stripChars (l : List Char) : List Char :=
  ((l.dropWhile Char.isWhitespace).reverse.dropWhile Char.isWhitespace).reverse

/-- Parse raw header text into a dict: split on newlines, keep entries
containing a colon, split each at the first colon (`entry.split(":", 1)`),
strip the value; later duplicates overwrite. -/
def parseHeaderDict (cheaders : String) : List (String × String) :=
  (splitOnCharList '\n' cheaders.data).foldl
    (fun hs line =>
      let key := line.takeWhile (fun c => c ≠ ':')
      match line.dropWhile (fun c => c ≠ ':') with
      | [] => hs
      | _ :: valueChars =>
          alistSet hs (String.mk key) (String.mk (stripChars valueChars)))
    []

/-- `Browser.__normalize_data`: if the parsed headers map `Content-Encoding`
to `gzip`, try `zlib.decompress(data, 15 + 32)` — modelled by the abstract
`decompress` capability, `Option.none` standing for `zlib.error` — and on
failure fall back to the original body; otherwise return the body unchanged. -/
def normalizeData (decompress : String → Option String) (data cheaders : String) :
    String :=
  let headers := parseHeaderDict cheaders
  if (alistGet headers "Content-Encoding").getD "" = "gzip" then
    match decompress data with
    | some d => d
    | Option.none => data
  else
    data

/-! ### Cache store (`Browser.__get_filename`, `__cache_response`,
`__load_cached_response`) and browser construction -/

/-- The cache `.meta` sidecar content: `{code, content_type, url}`. -/
structure Meta where
  code : PyVal
  content_type : PyVal
  url : PyVal
  deriving DecidableEq, Repr

/-- One stored file: its byte content, an optional parsed-JSON view (present
for `.meta` sidecars; `json.load` on a non-JSON body raises ValueError), and
its mtime. -/
structure FileRec where
  content : String
  metaView : Option Meta
  mtime : Int
  deriving DecidableEq, Repr

/-- The storage capability: filename-keyed blobs, per the spec's
"read/write a byte blob plus small JSON sidecar by key". -/
abbrev FS := List (String × FileRec)

def fsExists (fs : FS) (name : String) : Bool := (alistGet fs name).isSome

def fsWriteBody (fs : FS) (name : String) (s : String) (now : Int) : FS :=
  alistSet fs name ⟨s, Option.none, now⟩

def fsWriteMeta (fs : FS) (name : String) (m : Meta) (now : Int) : FS :=
  alistSet fs name ⟨"", some m, now⟩

/-- `open(name).read()` — IOError when the file does not exist. -/
def fsRead (fs : FS) (name : String) : Except PyErr String :=
  match alistGet fs name with
  | some rec => .ok rec.content
  | Option.none => .error .ioError

/-- `json.load(open(name))`. -/
def fsReadMeta (fs : FS) (name : String) : Except PyErr Meta :=
  match alistGet fs name with
  | some rec =>
      match rec.metaView with
      | some m => .ok m
      | Option.none => .error .valueError
  | Option.none => .error .ioError

/-- `os.path.getmtime(name)` for an existing file (0 if absent; every use
below is guarded by `fsExists`). -/
def fsMtime (fs : FS) (name : String) : Int :=
  match alistGet fs name with
  | some rec => rec.mtime
  | Option.none => 0

/-- Does the string start with the character? -/
def strStarts (s : String) (c : Char) : Bool :=
  match s.data with
  | [] => false
  | a :: _ => a = c

/-- Does the string end with the character? -/
def strEnds (s : String) (c : Char) : Bool :=
  match s.data.getLast? with
  | some a => a = c
  | Option.none => false

/-- `os.path.join(a, b)` as posixpath implements it.  When `a` is Python
`None` and `b` does not start with `/`, the loop evaluates
`None.endswith('/')` and raises AttributeError. -/
def osPathJoin (a : Option String) (b : String) : Except PyErr String :=
  if strStarts b '/' then .ok b
  else
    match a with
    | Option.none => .error .attributeError
    | some path =>
        .ok (if path = "" ∨ strEnds path '/' then path ++ b else path ++ "/" ++ b)

/-- Browser configuration (the fields the claims depend on). -/
structure BrowserConfig where
  cacheMethod : String
  cacheRoot : Option String
  cacheExpiration : Int
  deriving DecidableEq, Repr

/-- `Browser.__init__` restricted to the cache settings: `kwargs.get` defaults
(`cache_method='never'`, `cache_root=None`, `cache_expiration=600`), then the
check raising CacheConfigurationException when caching is enabled without a
truthy `cache_root`. -/
def browserInit (cacheMethodArg : Option String) (cacheRootArg : Option String)
    (cacheExpirationArg : Option Int) : Except PyErr BrowserConfig :=
  let cm := cacheMethodArg.getD "never"
  let cr := cacheRootArg
  let ce := cacheExpirationArg.getD 600
  if (cm = "expire" ∨ cm = "forever") ∧ (cr = Option.none ∨ cr = some "") then
    .error .cacheConfiguration
  else
    .ok ⟨cm, cr, ce⟩

/-- `Browser.__get_filename`: `os.path.join(cache_root, md5(url).hexdigest())
+ "." + method`.  The md5 capability is the abstract `md5hex`. -/
def getFilename (md5hex : String → String) (cacheRoot : Option String)
    (url method : String) : Except PyErr String := do
  let urlHash := md5hex url
  let p ← osPathJoin cacheRoot urlHash
  .ok (p ++ "." ++ method)

/-- `Browser.__cache_response`: computes the cache filename FIRST (faulting
when `cache_root` is `None`), then, only under `expire`/`forever`, writes the
body blob and the `.meta` sidecar and returns the filename; under any other
policy it returns `None` without writing. -/
def cacheResponse (md5hex : String → String) (cfg : BrowserConfig) (fs : FS)
    (now : Int) (url method body : String) (code contentType : PyVal) :
    Except PyErr (FS × PyVal) := do
  let filename ← getFilename md5hex cfg.cacheRoot url method
  if cfg.cacheMethod = "expire" ∨ cfg.cacheMethod = "forever" then
    let fs1 := fsWriteBody fs filename body now
    let fs2 := fsWriteMeta fs1 (filename ++ ".meta")
      ⟨code, contentType, .str url⟩ now
    .ok (fs2, .str filename)
  else
    .ok (fs, .none)

/-- `Browser.__load_cached_response`: `None` immediately under `never`
(before any filename computation); otherwise a hit iff the blob exists
(`forever`), or exists and `time.time() - mtime < cache_expiration`
(`expire`); on a hit, reads the body and the `.meta` sidecar and builds the
cache-sourced Struct carrying the caller-supplied `uid` as `id`. -/
def loadCachedResponse (md5hex : String → String) (cfg : BrowserConfig)
    (fs : FS) (now : Int) (url method : String) (uid : PyVal) :
    Except PyErr (Option RStruct) :=
  if cfg.cacheMethod = "never" then .ok Option.none
  else do
    let filename ← getFilename md5hex cfg.cacheRoot url method
    let cached :=
      if cfg.cacheMethod = "forever" ∧ fsExists fs filename then true
      else if cfg.cacheMethod = "expire" ∧ fsExists fs filename ∧
          now - fsMtime fs filename < cfg.cacheExpiration then true
      else false
    if cached then do
      let data ← fsRead fs filename
      let metadata ← fsReadMeta fs (filename ++ ".meta")
      .ok (some [("file", .str filename),
                 ("data", .str data),
                 ("source", .str "cache"),
                 ("result", .str "ok"),
                 ("url", metadata.url),
                 ("code", metadata.code),
                 ("content_type", metadata.content_type),
                 ("id", uid)])
    else
      .ok Option.none

/-! ### Single fetch (`Browser.fetch`) -/

/-- Outcome of one transport exchange (the pycurl capability): either headers,
body, status code and content type, or a `pycurl.error` with whatever
`HTTP_CODE` was obtainable from the handle. -/
inductive NetOutcome where
  | success (body headers : String) (code : Int) (ctype : PyVal)
  | failure (code : Int)

/-- `Browser.__set_request_params`: strip the url, join `key=value` pairs with
`&`; GET appends them to the url after `?`, POST sets them as the post body
(no url change observable here). -/
def setRequestParams (params : List (String × String)) (url method : String) :
    String :=
  let url := url.trim
  let paramsStr := String.intercalate "&" (params.map (fun p => p.1 ++ "=" ++ p.2))
  if method = "GET" then url ++ "?" ++ paramsStr else url

/-- `Browser.fetch`: apply params if truthy, consult the cache (uid `None`),
otherwise run one transfer.  On success, normalize, build the ok Struct, then
`result.file = self.__cache_response(result)` (whose failure — not being a
`pycurl.error` — propagates).  On `pycurl.error`, return the error Struct with
the obtainable status code, having written nothing. -/
def fetch (md5hex : String → String) (decompress : String → Option String)
    (cfg : BrowserConfig) (fs : FS) (now : Int) (net : String → String → NetOutcome)
    (url method : String) (params : Option (List (String × String))) :
    Except PyErr (RStruct × FS) := do
  let url :=
    match params with
    | some ps => if ps ≠ [] then setRequestParams ps url method else url
    | Option.none => url
  let cachedOpt ← loadCachedResponse md5hex cfg fs now url method .none
  match cachedOpt with
  | some r => .ok (r, fs)
  | Option.none =>
      match net url method with
      | .success body headers code ctype =>
          let data := normalizeData decompress body headers
          let result : RStruct :=
            [("result", .str "ok"), ("source", .str "web"), ("data", .str data),
             ("code", .int code), ("content_type", ctype), ("url", .str url),
             ("method", .str method)]
          do
            let (fs', fileV) ← cacheResponse md5hex cfg fs now url method data
              (.int code) ctype
            .ok (result ++ [("file", fileV)], fs')
      | .failure code =>
          .ok ([("result", .str "error"), ("source", .str "web"), ("data", .none),
                ("code", .int code), ("url", .str url), ("method", .str method)], fs)

/-! ### Bulk fetch (`Browser.multi_fetch`): filter pass -/

inductive PyWarning where
  | urlTooLong
  | connectionsNumber
  deriving DecidableEq, Repr

/-- Outcome of a phase of `multi_fetch`: the warnings emitted so far (they are
side effects that survive a subsequent exception) plus the value or the
exception. -/
structure WarnedOut (α : Type) where
  warnings : List PyWarning
  outcome : Except PyErr α

/-- The filter pass of `multi_fetch` over the request dicts: skip falsy or
`#`-comment urls; for urls longer than 1024 characters emit the warning and
then evaluate `Struct({'result': 'error'})` — a positional-argument call;
serve cache hits (uid = `entry.get("id", None)`) into the results mapping;
queue the rest. -/
def multiFetchFilter (md5hex : String → String) (cfg : BrowserConfig) (fs : FS)
    (now : Int) :
    List PyDict → List PyWarning → List PyDict → List (String × RStruct) →
    WarnedOut (List PyDict × List (String × RStruct))
  | [], ws, queue, results => ⟨ws, .ok (queue, results)⟩
  | entry :: rest, ws, queue, results =>
      match pyGet entry (.str "url") with
      | .error e => ⟨ws, .error e⟩
      | .ok urlV =>
          if pyTruthy urlV = false then
            multiFetchFilter md5hex cfg fs now rest ws queue results
          else
            match urlV with
            | .str s =>
                if strStarts s '#' then
                  multiFetchFilter md5hex cfg fs now rest ws queue results
                else if s.length > 1024 then
                  let ws' := ws ++ [.urlTooLong]
                  match structNew [[(.str "result", .str "error")]] [] with
                  | .ok r =>
                      multiFetchFilter md5hex cfg fs now rest ws' queue
                        (alistSet results s r)
                  | .error e => ⟨ws', .error e⟩
                else
                  match loadCachedResponse md5hex cfg fs now s "GET"
                      (pyGetD entry (.str "id") .none) with
                  | .error e => ⟨ws, .error e⟩
                  | .ok (some r) =>
                      multiFetchFilter md5hex cfg fs now rest ws queue
                        (alistSet results s r)
                  | .ok Option.none =>
                      multiFetchFilter md5hex cfg fs now rest ws (queue ++ [entry])
                        results
            | _ => ⟨ws, .error .typeError⟩

/-! ### Bulk fetch: the scheduler loop -/

/-- Response data delivered by the multi-handle for one completed transfer. -/
structure WebData where
  body : String
  headers : String
  code : Int
  ctype : PyVal

/-- One pool handle bound to an in-flight request: the handle index, the
request url (`curl.url`) and the correlation id computed at assignment
(`curl.id`). -/
structure Active where
  handle : Nat
  url : String
  idVal : PyVal
  deriving DecidableEq, Repr

/-- One `info_read` answer: transfers that finished ok and transfers that
failed (handle, errno, errmsg).  A round of the outer loop consumes a list of
these, the last one corresponding to `num_q == 0`. -/
structure Batch where
  oks : List (Nat × WebData)
  errs : List (Nat × Int × String)

/-- The scheduler's mutable state. -/
structure LoopState where
  queue : List PyDict
  freelist : List Nat
  active : List Active
  results : List (String × RStruct)
  numProcessed : Nat
  bailout : Bool
  fs : FS
  deriving DecidableEq, Repr

/-- `if id in url_data: curl.id = url_data["id"] else: curl.id = None` — the
membership test uses the Python builtin `id`, not the string `"id"`. -/
def assignCurlId (d : PyDict) : Except PyErr PyVal :=
  if d.any (fun p => p.1 = PyKey.builtinId) then pyGet d (.str "id")
  else .ok .none

/-- Assignment phase: while the queue and the free list are non-empty, pop the
first queued request and the last free handle (`freelist.pop()`), bind them,
and record `curl.url = str(url_data["url"])` and `curl.id`. -/
def assignGo : List PyDict → List Nat → List Active →
    Except PyErr (List PyDict × List Nat × List Active)
  | [], fl, act => .ok ([], fl, act)
  | d :: qrest, fl, act =>
      match fl with
      | [] => .ok (d :: qrest, [], act)
      | f :: frest => do
          let urlV ← pyGet d (.str "url")
          let idV ← assignCurlId d
          let h := (f :: frest).getLast (by simp)
          assignGo qrest ((f :: frest).dropLast)
            (act ++ [⟨h, pyStr urlV, idV⟩])

def assignAll (st : LoopState) : Except PyErr LoopState := do
  let (q, fl, act) ← assignGo st.queue st.freelist st.active
  .ok { st with queue := q, freelist := fl, active := act }

/-- Remove the first active entry bound to handle `h`, keeping order. -/
def removeHandle (h : Nat) : List Active → Option (Active × List Active)
  | [] => Option.none
  | a :: rest =>
      if a.handle = h then some (a, rest)
      else
        match removeHandle h rest with
        | some (b, rest') => some (b, a :: rest')
        | Option.none => Option.none

/-- The redundant second body write of the harvest loop (src lines 503-509):
under a caching policy, re-open the cache filename and rewrite the body. -/
def extraWrite (md5hex : String → String) (cfg : BrowserConfig) (fs1 : FS)
    (url data : String) (now : Int) : Except PyErr FS :=
  if cfg.cacheMethod = "expire" ∨ cfg.cacheMethod = "forever" then do
    let fn ← getFilename md5hex cfg.cacheRoot url "GET"
    pure (fsWriteBody fs1 fn data now)
  else pure fs1

/-- Harvest one successfully finished transfer: normalize, build the
source=web Struct (id = `curl.id`), `result.file = __cache_response(result)`,
record under `curl.url`, perform the redundant second body write under a
caching policy, and return the handle to the free list.  A handle that is not
active is skipped (info_read only reports added handles). -/
def processOk (md5hex : String → String) (decompress : String → Option String)
    (cfg : BrowserConfig) (now : Int) (st : LoopState) (h : Nat) (w : WebData) :
    Except PyErr (LoopState × Nat) :=
  match removeHandle h st.active with
  | Option.none => .ok (st, 0)
  | some (a, act') => do
      let data := normalizeData decompress w.body w.headers
      let result : RStruct :=
        [("result", .str "ok"), ("source", .str "web"), ("content_type", w.ctype),
         ("code", .int w.code), ("data", .str data), ("id", a.idVal),
         ("url", .str a.url), ("method", .str "GET")]
      let (fs1, fileV) ← cacheResponse md5hex cfg st.fs now a.url "GET" data
        (.int w.code) w.ctype
      let result := result ++ [("file", fileV)]
      let fs2 ← extraWrite md5hex cfg fs1 a.url data now
      .ok ({ st with
              active := act'
              results := alistSet st.results a.url result
              fs := fs2
              freelist := st.freelist ++ [h] }, 1)

def processOks (md5hex : String → String) (decompress : String → Option String)
    (cfg : BrowserConfig) (now : Int) (st : LoopState) :
    List (Nat × WebData) → Except PyErr (LoopState × Nat)
  | [] => .ok (st, 0)
  | (h, w) :: rest => do
      let (st1, c1) ← processOk md5hex decompress cfg now st h w
      let (st2, c2) ← processOks md5hex decompress cfg now st1 rest
      .ok (st2, c1 + c2)

/-- Harvest one failed transfer: build the error Struct carrying
`"errno errmsg"`, `curl.id` and `curl.url`, record it, return the handle. -/
def processErr (st : LoopState) (h : Nat) (errno : Int) (errmsg : String) :
    LoopState × Nat :=
  match removeHandle h st.active with
  | Option.none => (st, 0)
  | some (a, act') =>
      let result : RStruct :=
        [("result", .str "error"),
         ("error", .str (toString errno ++ " " ++ errmsg)),
         ("id", a.idVal), ("url", .str a.url)]
      ({ st with
          active := act'
          results := alistSet st.results a.url result
          freelist := st.freelist ++ [h] }, 1)

def processErrs (st : LoopState) : List (Nat × Int × String) → LoopState × Nat
  | [] => (st, 0)
  | (h, errno, errmsg) :: rest =>
      let (st1, c1) := processErr st h errno errmsg
      let (st2, c2) := processErrs st1 rest
      (st2, c1 + c2)

/-- The `info_read` loop of one round: process each batch, add the processed
count to `num_processed`, and after each batch test
`num_processed / num_urls * 100 > percentile`; when it fires set bailout and
break out (skipping the remaining batches). -/
def harvestBatches (md5hex : String → String) (decompress : String → Option String)
    (cfg : BrowserConfig) (now : Int) (numUrls percentile : Nat)
    (st : LoopState) : List Batch → Except PyErr LoopState
  | [] => .ok st
  | b :: rest => do
      let (st1, c1) ← processOks md5hex decompress cfg now st b.oks
      let (st2, c2) := processErrs st1 b.errs
      let st3 := { st2 with numProcessed := st2.numProcessed + c1 + c2 }
      if numUrls ≠ 0 ∧ st3.numProcessed * 100 > percentile * numUrls then
        .ok { st3 with bailout := true }
      else
        harvestBatches md5hex decompress cfg now numUrls percentile st3 rest

/-- The outer `while num_processed < num_urls` loop, one schedule entry per
round; `if bailout: break` first, then assignment, then harvest.  The
schedule abstracts which transfers the network completes in each round; an
exhausted schedule means the run is observed at that point. -/
def runRounds (md5hex : String → String) (decompress : String → Option String)
    (cfg : BrowserConfig) (now : Int) (numUrls percentile : Nat) :
    List (List Batch) → LoopState → Except PyErr LoopState
  | [], st => .ok st
  | round :: rest, st =>
      if st.numProcessed < numUrls then
        if st.bailout then .ok st
        else do
          let st1 ← assignAll st
          let st2 ← harvestBatches md5hex decompress cfg now numUrls percentile
            st1 round
          runRounds md5hex decompress cfg now numUrls percentile rest st2
      else .ok st

/-- Pool initialization: `num_conn` fresh handles, all free, in order. -/
def initLoopState (queue : List PyDict) (results : List (String × RStruct))
    (numConn : Nat) (fs : FS) : LoopState :=
  { queue := queue, freelist := List.range numConn, active := [],
    results := results, numProcessed := 0, bailout := false, fs := fs }

/-- The post-filter part of `multi_fetch` on a non-empty queue:
`num_conn = min(num_conn, num_urls)`, the `< 1` check, pool initialization
and the round loop. -/
def runLoop (md5hex : String → String) (decompress : String → Option String)
    (cfg : BrowserConfig) (now : Int) (queue₀ : List PyDict)
    (results₀ : List (String × RStruct)) (numConnArg percentile : Nat)
    (fs : FS) (sched : List (List Batch)) : Except PyErr LoopState :=
  let numUrls := queue₀.length
  let numConn := min numConnArg numUrls
  if numConn < 1 then .error .connectionsNumber
  else
    runRounds md5hex decompress cfg now numUrls percentile sched
      (initLoopState queue₀ results₀ numConn fs)

/-- `Browser.multi_fetch` end to end: filter pass, early return on an empty
queue, the high-connection-count warning, then the scheduler loop; the
returned value is the results mapping of the final state. -/
def multiFetchRun (md5hex : String → String) (decompress : String → Option String)
    (cfg : BrowserConfig) (fs : FS) (now : Int) (entries : List PyDict)
    (numConnArg percentile : Nat) (sched : List (List Batch)) :
    WarnedOut (List (String × RStruct)) :=
  let fo := multiFetchFilter md5hex cfg fs now entries [] [] []
  match fo.outcome with
  | .error e => ⟨fo.warnings, .error e⟩
  | .ok (queue, results) =>
      if queue.isEmpty then ⟨fo.warnings, .ok results⟩
      else
        let numConn := min numConnArg queue.length
        let ws := fo.warnings ++
          (if numConn > 1024 then [PyWarning.connectionsNumber] else [])
        match runLoop md5hex decompress cfg now queue results numConnArg
            percentile fs sched with
        | .error e => ⟨ws, .error e⟩
        | .ok st => ⟨ws, .ok st.results⟩

/-! ### Extraction engine (`Browser.__extract_data`, `Browser.extract`) -/

/-- The lxml document capability: a parsed node, carrying its serialization
(`etree.tostring` / `lxml.html.tostring`), its Python truthiness (an element
with no children is falsy), and path-query evaluation returning string
results or sub-elements (or raising). -/
inductive Doc where
  | mk (ser : String) (truthyB : Bool)
      (xpf : String → Except PyErr (List (Sum String Doc)))

def Doc.ser : Doc → String
  | .mk s _ _ => s

def Doc.truthy : Doc → Bool
  | .mk _ b _ => b

def Doc.xp : Doc → String → Except PyErr (List (Sum String Doc))
  | .mk _ _ f => f

/-- One field rule of an `Extractor`: the optional dict entries `xpath`,
`mode`, `xpath_multi`, `regexp`, `parser` (a post-processing function) and
`items` (the nested schema's field list, for loop mode). -/
inductive FieldInfo where
  | mk (xq : Option String) (mode : Option String) (xqMulti : Option String)
      (rePat : Option String) (post : Option (String → String))
      (items : Option (List (String × FieldInfo)))

def FieldInfo.xqOf : FieldInfo → Option String
  | .mk x _ _ _ _ _ => x

def FieldInfo.modeOf : FieldInfo → Option String
  | .mk _ m _ _ _ _ => m

def FieldInfo.xmultiOf : FieldInfo → Option String
  | .mk _ _ x _ _ _ => x

def FieldInfo.rePatOf : FieldInfo → Option String
  | .mk _ _ _ r _ _ => r

def FieldInfo.postOf : FieldInfo → Option (String → String)
  | .mk _ _ _ _ p _ => p

def FieldInfo.itemsOf : FieldInfo → Option (List (String × FieldInfo))
  | .mk _ _ _ _ _ i => i

/-- A value stored in an extraction record: a string, a raw element (multi
mode without post-processing), a list, a nested record, `None`, or the
trailing `lxml_handle` document reference. -/
inductive ExVal where
  | vnone
  | vstr (s : String)
  | velem (d : Doc)
  | vlist (xs : List ExVal)
  | vrec (fields : List (String × ExVal))
  | vdoc (d : Option Doc)

/-- `re.search(pattern, text)` followed by `.group("content")`: no match at
all, a match whose pattern lacks a `content` group (IndexError), or the
group's value (`None` when the group did not participate). -/
inductive GroupOutcome where
  | found (s : Option String)
  | noContentGroup

/-- `Browser.__get_str` on the single-mode joined string: apply the parser iff
present and the string truthy. -/
def getStrS (post : Option (String → String)) (s : String) : String :=
  match post with
  | some f => if s ≠ "" then f s else s
  | Option.none => s

/-- `Browser.__get_str` on one multi-mode match.  A parser applied to an
element node is modelled through the node's serialization. -/
def getStrX (post : Option (String → String)) : Sum String Doc → ExVal
  | Sum.inl s =>
      match post with
      | some f => if s ≠ "" then .vstr (f s) else .vstr s
      | Option.none => .vstr s
  | Sum.inr d =>
      match post with
      | some f => if d.truthy then .vstr (f d.ser) else .velem d
      | Option.none => .velem d

/-- The single-mode branch: inside `try`, evaluate the query on `data_xml`
(`None.xpath` raises AttributeError), join string results and element
serializations, apply `__get_str`; `except IndexError` yields `None`, any
other exception propagates. -/
def singleField (dxml : Option Doc) (q : String)
    (post : Option (String → String)) : Except PyErr ExVal :=
  let attempt : Except PyErr ExVal := do
    let dx ← match dxml with
      | some d => Except.ok d
      | Option.none => Except.error PyErr.attributeError
    let entries ← dx.xp q
    let dataList := entries.map (fun e =>
      match e with
      | Sum.inl s => s
      | Sum.inr d2 => d2.ser)
    Except.ok (.vstr (getStrS post (String.join dataList)))
  match attempt with
  | .error .indexError => .ok .vnone
  | other => other

/-- The multi-mode branch: an absent document yields an empty list (the
`if data_xml is not None` guard); there is no `try`, so a query failure
propagates. -/
def multiField (dxml : Option Doc) (q : String)
    (post : Option (String → String)) : Except PyErr ExVal :=
  match dxml with
  | Option.none => .ok (.vlist [])
  | some dx => do
      let entries ← dx.xp q
      .ok (.vlist (entries.map (getStrX post)))

/-- The regexp branch: `re.search` then `groups.group("content")` inside a
`try` that only catches AttributeError (the non-match case, where `groups` is
`None`); an IndexError from a missing `content` group propagates;
`unicode(None)` is the string "None". -/
def regexField (research : String → String → Option GroupOutcome)
    (dstr : Option String) (pat : String)
    (post : Option (String → String)) : Except PyErr ExVal := do
  let s ← match dstr with
    | some s => Except.ok s
    | Option.none => Except.error PyErr.nameError
  match research pat s with
  | Option.none => .ok .vnone
  | some .noContentGroup => .error .indexError
  | some (.found sOpt) =>
      match sOpt with
      | some s2 =>
          .ok (.vstr (match post with
            | some f => f s2
            | Option.none => s2))
      | Option.none => .ok (.vstr "None")

/-- Does some field of the schema carry an `xpath` entry? (the lazy-parse
test of the string-input pre-pass). -/
def hasXq (fields : List (String × FieldInfo)) : Bool :=
  fields.any (fun p => p.2.xqOf.isSome)

/-- Does some field carry a `regexp` entry? (the lazy-serialize test of the
element-input pre-pass). -/
def hasRe (fields : List (String × FieldInfo)) : Bool :=
  fields.any (fun p => p.2.rePatOf.isSome)

theorem sizeOf_items_lt (info : FieldInfo) (its : List (String × FieldInfo))
    (h : info.itemsOf = some its) : sizeOf its < sizeOf info := by
  cases info with
  | mk a b c d e f =>
      cases f with
      | none => simp [FieldInfo.itemsOf] at h
      | some l =>
          simp [FieldInfo.itemsOf] at h
          subst h
          simp
          omega

set_option linter.unusedVariables false in
mutual

/-- `Browser.__extract_data`: pre-pass (lazily parse a string input iff some
field needs xpath, with a bare-except fallback to `None`; lazily serialize an
element input iff some field needs a regexp), then the field walk, then the
trailing `lxml_handle` entry. -/
def extractData (parse : String → Option Doc)
    (research : String → String → Option GroupOutcome)
    (element : Sum String Doc) (fields : List (String × FieldInfo)) :
    Except PyErr (List (String × ExVal)) :=
  let dstr : Option String :=
    match element with
    | Sum.inl s => some s
    | Sum.inr d => if hasRe fields then some d.ser else Option.none
  let dxml : Option Doc :=
    match element with
    | Sum.inl s => if hasXq fields then parse s else Option.none
    | Sum.inr d => some d
  do
    let res ← extractGo parse research dstr dxml fields
    .ok (res ++ [("lxml_handle", .vdoc dxml)])
termination_by (sizeOf fields, 1)
decreasing_by
  exact Prod.Lex.right _ (by omega)

/-- The per-field walk: an `xpath` rule dispatches on `mode` (absent mode
means single; an unrecognized mode stores nothing); otherwise a `regexp`
rule; otherwise the field is skipped. -/
def extractGo (parse : String → Option Doc)
    (research : String → String → Option GroupOutcome)
    (dstr : Option String) (dxml : Option Doc)
    (fields : List (String × FieldInfo)) :
    Except PyErr (List (String × ExVal)) :=
  match fields with
  | [] => .ok []
  | (fname, info) :: rest => do
      let here : List (String × ExVal) ←
        match info.xqOf with
        | some q =>
            match info.modeOf with
            | Option.none => do
                let v ← singleField dxml q info.postOf
                pure [(fname, v)]
            | some m =>
                if m = "single" then do
                  let v ← singleField dxml q info.postOf
                  pure [(fname, v)]
                else if m = "multi" then do
                  let v ← multiField dxml q info.postOf
                  pure [(fname, v)]
                else if m = "loop" then do
                  let xm ← match info.xmultiOf with
                    | some q2 => pure q2
                    | Option.none => Except.error PyErr.keyError
                  let dx ← match dxml with
                    | some d => pure d
                    | Option.none => Except.error PyErr.attributeError
                  let entries ← dx.xp xm
                  match hits : info.itemsOf with
                  | some its => do
                      let recs ← mapLoop parse research its entries
                      pure [(fname, ExVal.vlist recs)]
                  | Option.none => Except.error PyErr.keyError
                else pure []
        | Option.none =>
            match info.rePatOf with
            | some pat => do
                let v ← regexField research dstr pat info.postOf
                pure [(fname, v)]
            | Option.none => pure []
      let restRes ← extractGo parse research dstr dxml rest
      .ok (here ++ restRes)
termination_by (sizeOf fields, 0)
decreasing_by
  · exact Prod.Lex.left _ _ (by simp)
  · exact Prod.Lex.left _ _ (by
      have h2 := sizeOf_items_lt info its hits
      simp
      omega)

/-- Loop mode: recursively extract the nested schema from every enumerated
sub-element, wrapping each record as a `Struct`. -/
def mapLoop (parse : String → Option Doc)
    (research : String → String → Option GroupOutcome)
    (its : List (String × FieldInfo))
    (entries : List (Sum String Doc)) : Except PyErr (List ExVal) :=
  match entries with
  | [] => .ok []
  | e :: es => do
      let r ← extractData parse research e its
      let rest ← mapLoop parse research its es
      .ok (ExVal.vrec r :: rest)
termination_by (sizeOf its, 2 + entries.length)
decreasing_by
  · exact Prod.Lex.right _ (by omega)
  · exact Prod.Lex.right _ (by simp)

end

/-- `Browser.extract`: wrap the record in a `Struct`. -/
def extract (parse : String → Option Doc)
    (research : String → String → Option GroupOutcome)
    (element : Sum String Doc) (fields : List (String × FieldInfo)) :
    Except PyErr ExVal := do
  let r ← extractData parse research element fields
  .ok (.vrec r)

/-! ### Pagination crawler (`ListParser.fetch`), count-extractor path -/

/-- The numeric value of a non-empty all-digit character list. -/
def digitsVal : List Char → Option Nat
  | [] => Option.none
  | l =>
      l.foldl
        (fun acc c =>
          acc.bind (fun n =>
            if c.isDigit then some (n * 10 + (c.toNat - 48)) else Option.none))
        (some 0)

/-- `int(s)` on a string: strip whitespace, allow an optional sign, require
digits; ValueError otherwise. -/
def strToIntPy (s : String) : Option Int :=
  match stripChars s.data with
  | '-' :: ds => (digitsVal ds).map (fun n => -(n : Int))
  | '+' :: ds => (digitsVal ds).map (fun n => (n : Int))
  | ds => (digitsVal ds).map (fun n => (n : Int))

/-- `int(v)` for the values we model. -/
def pyIntConv : PyVal → Except PyErr Int
  | .int n => .ok n
  | .str s =>
      match strToIntPy s with
      | some n => .ok n
      | Option.none => .error .valueError
  | .none => .error .typeError

/-- Truthiness of the `max_pages` setting (`if self.max_pages:`). -/
def truthyOptInt : Option Int → Bool
  | Option.none => false
  | some n => n ≠ 0

/-- `xrange(a, b)` as a list. -/
def xrangeI (a b : Int) : List Int :=
  (List.range (b - a).toNat).map (fun i => a + (i : Int))

/-- The `pages` computation of the count path of `ListParser.fetch`:
`[]` when the extracted count is falsy, else
`xrange(2, max(max_pages, count) - 4)` under a max-pages cap and
`xrange(2, count - 1)` without one. -/
def pagesOf (maxPages : Option Int) (ct : PyVal) : Except PyErr (List Int) :=
  if pyTruthy ct = false then .ok []
  else do
    let c ← pyIntConv ct
    if truthyOptInt maxPages then
      .ok (xrangeI 2 (max (maxPages.getD 0) c - 4))
    else
      .ok (xrangeI 2 (c - 1))

/-- Substring occurrence over character lists. -/
def strContainsList (needle : List Char) : List Char → Bool
  | [] => needle.isEmpty
  | c :: rest => needle.isPrefixOf (c :: rest) || strContainsList needle rest

/-- Python `needle in hay` for strings. -/
def strIn (needle hay : String) : Bool := strContainsList needle.data hay.data

def stopTruthy : Option String → Bool
  | Option.none => false
  | some w => w ≠ ""

/-- The page loop of `ListParser.fetch`: fetch each page of `pages` in order,
extend the results with its items, and break after a page containing the
(truthy) stop word.  Also returns the page numbers actually fetched. -/
def pagesLoop (getPage : Int → String) (extractItems : String → List String)
    (stopWord : Option String) :
    List Int → List String → List String × List Int
  | [], acc => (acc, [])
  | p :: rest, acc =>
      let data := getPage p
      let acc' := acc ++ extractItems data
      if stopTruthy stopWord && strIn (stopWord.getD "") data then
        (acc', [p])
      else
        let (r, ps) := pagesLoop getPage extractItems stopWord rest acc'
        (r, p :: ps)

/-- `ListParser.fetch` when a count extractor is configured (the claim's
count-bounded path; `self.count_extractor or self.max_pages` is then true and
the count branch is taken): page 1 is fetched and extracted, the page bound
is computed from the extracted count, and the remaining pages are walked
sequentially.  The page-fetch, item-extraction and count-extraction
capabilities are the abstract parameters.  Returns the aggregated items and
the page numbers fetched after page 1. -/
def listParserFetch (getPage : Int → String)
    (extractItems : String → List String) (getCount : String → PyVal)
    (maxPages : Option Int) (stopWord : Option String) :
    Except PyErr (List String × List Int) := do
  let data1 := getPage 1
  let results := extractItems data1
  let pages ← pagesOf maxPages (getCount data1)
  .ok (pagesLoop getPage extractItems stopWord pages results)

/-- What the claim says the fetched pages are — upper bound
`min(maxPages, count)` under a cap, `count` without — under the half-open
reading of "pages 2 .. upperBound-1" (`xrange(2, upperBound - 1)`). -/
def claimPagesHalfOpen (maxPages : Option Int) (c : Int) : List Int :=
  match maxPages with
  | some mp => xrangeI 2 (min mp c - 1)
  | Option.none => xrangeI 2 (c - 1)

/-- The same under the inclusive reading of "pages 2 .. upperBound-1"
(`xrange(2, upperBound)`). -/
def claimPagesInclusive (maxPages : Option Int) (c : Int) : List Int :=
  match maxPages with
  | some mp => xrangeI 2 (min mp c)
  | Option.none => xrangeI 2 c

/-! ## Theorems for the claims -/

/-- Claim C6: a body whose parsed headers declare `Content-Encoding: gzip`
but which the decompressor rejects is returned unchanged (no exception);
a valid gzip body is returned decompressed; any other (or no)
`Content-Encoding` value leaves the body unchanged. -/
theorem claim_C6 (decompress : String → Option String) (data cheaders : String) :
    ((alistGet (parseHeaderDict cheaders) "Content-Encoding").getD "" = "gzip" →
      decompress data = Option.none →
      normalizeData decompress data cheaders = data) ∧
    ((alistGet (parseHeaderDict cheaders) "Content-Encoding").getD "" = "gzip" →
      ∀ d, decompress data = some d →
      normalizeData decompress data cheaders = d) ∧
    ((alistGet (parseHeaderDict cheaders) "Content-Encoding").getD "" ≠ "gzip" →
      normalizeData decompress data cheaders = data) := by
  refine ⟨?_, ?_, ?_⟩
  · intro he hn
    simp [normalizeData, he, hn]
  · intro he d hd
    simp [normalizeData, he, hd]
  · intro he
    simp [normalizeData, he]

/-- Witness for C6 at a concrete input: a header block declaring gzip over a
plain-text body (decompression refused) comes back unchanged. -/
theorem claim_C6_witness :
    normalizeData (fun _ => Option.none) "plain text body"
      "HTTP/1.1 200 OK\r\nContent-Encoding: gzip\r\n\r" = "plain text body" :=
  (claim_C6 (fun _ => Option.none) "plain text body"
    "HTTP/1.1 200 OK\r\nContent-Encoding: gzip\r\n\r").1 (by decide) rfl

/-- Claim C1 (the code side): under policy `never` with the default
`cache_root = None`, a fetch whose transfer succeeds does NOT return an ok
Struct — `__cache_response` computes the cache filename before checking the
policy, and `os.path.join(None, hash)` raises AttributeError.  With a
`cache_root` supplied, the same fetch succeeds, the store step is a no-op
(file system unchanged, `file` attribute `None`). -/
theorem claim_C1_bug :
    (fetch (fun _ => "9a0364b9e99bb480dd25e1f0284c8555") (fun _ => Option.none)
        ⟨"never", Option.none, 600⟩ [] 0
        (fun _ _ => .success "BODY" "" 200 (.str "text/html"))
        "http://google.com/" "GET" Option.none = .error .attributeError) ∧
    (fetch (fun _ => "9a0364b9e99bb480dd25e1f0284c8555") (fun _ => Option.none)
        ⟨"never", some "/cache", 600⟩ [] 0
        (fun _ _ => .success "BODY" "" 200 (.str "text/html"))
        "http://google.com/" "GET" Option.none =
      .ok ([("result", .str "ok"), ("source", .str "web"), ("data", .str "BODY"),
            ("code", .int 200), ("content_type", .str "text/html"),
            ("url", .str "http://google.com/"), ("method", .str "GET"),
            ("file", .none)], [])) := by
  constructor
  · rfl
  · rfl

/-- The oversize URL used by claim C2 (1025 characters). -/
def longUrl : String := String.mk (List.replicate 1025 'a')

set_option maxRecDepth 8192 in
/-- Claim C2 (the code side): a batch containing a URL longer than 1024
characters emits the `UrlTooLongWarning`, but then `multi_fetch` raises
TypeError — `Struct({'result': 'error'})` passes the dict positionally to a
keyword-only `__init__` — instead of recording an error entry and
continuing. -/
theorem claim_C2_bug :
    (multiFetchRun (fun _ => "H") (fun _ => Option.none)
        ⟨"never", Option.none, 600⟩ [] 0
        [[(PyKey.str "url", PyVal.str longUrl)]] 100 100 []).warnings =
      [PyWarning.urlTooLong] ∧
    (multiFetchRun (fun _ => "H") (fun _ => Option.none)
        ⟨"never", Option.none, 600⟩ [] 0
        [[(PyKey.str "url", PyVal.str longUrl)]] 100 100 []).outcome =
      .error .typeError := by
  constructor
  · rfl
  · rfl

/-- Counterexample to claim C3 as stated: on a transport failure, the Struct
returned by `fetch` has status `error` and the obtainable status code, but
carries NO error-detail attribute at all (unlike the `multi_fetch` error
Structs). -/
theorem claim_C3_counterexample :
    ((fetch (fun _ => "H") (fun _ => Option.none) ⟨"never", Option.none, 600⟩
        [] 0 (fun _ _ => .failure 404) "http://x/" "GET" Option.none).map
      (fun p => attrGet p.1 "error")) = .ok Option.none ∧
    ((fetch (fun _ => "H") (fun _ => Option.none) ⟨"never", Option.none, 600⟩
        [] 0 (fun _ _ => .failure 404) "http://x/" "GET" Option.none).map
      (fun p => attrGet p.1 "result")) = .ok (some (.str "error")) := by
  constructor
  · rfl
  · rfl

/-- Claim C3 as amended: on a transport failure (and a cache miss), `fetch`
returns — without raising — a Struct with status `error`, the obtainable
HTTP status code and `data = None`, but no error-detail attribute, and the
cache is untouched. -/
theorem claim_C3_amended (md5hex : String → String)
    (decompress : String → Option String) (cfg : BrowserConfig) (fs : FS)
    (now : Int) (net : String → String → NetOutcome) (url method : String)
    (code : Int)
    (hnet : net url method = .failure code)
    (hcache : loadCachedResponse md5hex cfg fs now url method .none =
      .ok Option.none) :
    fetch md5hex decompress cfg fs now net url method Option.none =
      .ok ([("result", .str "error"), ("source", .str "web"), ("data", .none),
            ("code", .int code), ("url", .str url), ("method", .str method)],
        fs) ∧
    alistGet [("result", PyVal.str "error"), ("source", PyVal.str "web"),
        ("data", PyVal.none), ("code", PyVal.int code), ("url", PyVal.str url),
        ("method", PyVal.str method)] "error" = Option.none := by
  constructor
  · simp only [fetch, hcache, hnet]
    rfl
  · simp [alistGet]

/-- Witness for C3-amended at a concrete failing transfer. -/
theorem claim_C3_amended_witness :
    fetch (fun _ => "H") (fun _ => Option.none) ⟨"never", Option.none, 600⟩
        [] 0 (fun _ _ => .failure 0) "http://y/" "GET" Option.none =
      .ok ([("result", .str "error"), ("source", .str "web"), ("data", .none),
            ("code", .int 0), ("url", .str "http://y/"), ("method", .str "GET")],
        []) :=
  (claim_C3_amended (fun _ => "H") (fun _ => Option.none)
    ⟨"never", Option.none, 600⟩ [] 0 (fun _ _ => .failure 0) "http://y/" "GET" 0
    rfl rfl).1

/-- `Except.isOk` as a Bool (to phrase the sidecar-readability side
condition). -/
def exOk {ε α : Type} : Except ε α → Bool
  | .ok _ => true
  | .error _ => false

@[simp]
theorem exBind_ok {ε α β : Type} (a : α) (f : α → Except ε β) :
    (Except.ok a : Except ε α) >>= f = f a := rfl

@[simp]
theorem exBind_err {ε α β : Type} (e : ε) (f : α → Except ε β) :
    (Except.error e : Except ε α) >>= f = Except.error e := rfl

@[simp]
theorem exMap_ok {ε α β : Type} (f : α → β) (a : α) :
    Except.map f (Except.ok a : Except ε α) = Except.ok (f a) := rfl

/-- Claim C7: lookup obeys the policy — `never` always absent; `forever` hit
iff the blob exists under the fingerprint filename (given its `.meta` sidecar
is readable, i.e. the entry is not corrupt), regardless of age; `expire` hit
iff the blob exists and `now - mtime < cache_expiration`, whose default is
600 seconds. -/
theorem claim_C7 (md5hex : String → String) (fs : FS) (now : Int)
    (url method : String) (uid : PyVal) (rt : Option String) (r : String)
    (exp : Int) :
    (loadCachedResponse md5hex ⟨"never", rt, exp⟩ fs now url method uid =
      .ok Option.none) ∧
    (∀ fn, getFilename md5hex (some r) url method = .ok fn →
      (fsExists fs fn = true → exOk (fsReadMeta fs (fn ++ ".meta")) = true) →
      ((∃ s, loadCachedResponse md5hex ⟨"forever", some r, exp⟩ fs now url
          method uid = .ok (some s)) ↔ fsExists fs fn = true)) ∧
    (∀ fn, getFilename md5hex (some r) url method = .ok fn →
      (fsExists fs fn = true → exOk (fsReadMeta fs (fn ++ ".meta")) = true) →
      ((∃ s, loadCachedResponse md5hex ⟨"expire", some r, exp⟩ fs now url
          method uid = .ok (some s)) ↔
        (fsExists fs fn = true ∧ now - fsMtime fs fn < exp))) ∧
    (browserInit (some "expire") (some r) Option.none =
      if r = "" then .error .cacheConfiguration
      else .ok ⟨"expire", some r, 600⟩) := by
  refine ⟨?_, ?_, ?_, ?_⟩
  · simp [loadCachedResponse]
  · intro fn hfn hm
    by_cases hex : fsExists fs fn = true
    · obtain ⟨rec, hrec⟩ : ∃ rec, alistGet fs fn = some rec := by
        simpa [fsExists, Option.isSome_iff_exists] using hex
      have hmk := hm hex
      obtain ⟨m, hmrec⟩ : ∃ m, fsReadMeta fs (fn ++ ".meta") = .ok m := by
        cases hmr : fsReadMeta fs (fn ++ ".meta") with
        | ok m => exact ⟨m, rfl⟩
        | error e => simp [exOk, hmr] at hmk
      constructor
      · intro _; exact hex
      · intro _
        refine ⟨[("file", .str fn), ("data", .str rec.content),
          ("source", .str "cache"), ("result", .str "ok"), ("url", m.url),
          ("code", m.code), ("content_type", m.content_type), ("id", uid)], ?_⟩
        simp [loadCachedResponse, hfn, hex, fsRead, hrec, hmrec]
    · have hex' : fsExists fs fn = false := by simpa using hex
      simp [loadCachedResponse, hfn, hex']
  · intro fn hfn hm
    by_cases hex : fsExists fs fn = true
    · by_cases hlt : now - fsMtime fs fn < exp
      · obtain ⟨rec, hrec⟩ : ∃ rec, alistGet fs fn = some rec := by
          simpa [fsExists, Option.isSome_iff_exists] using hex
        have hmk := hm hex
        obtain ⟨m, hmrec⟩ : ∃ m, fsReadMeta fs (fn ++ ".meta") = .ok m := by
          cases hmr : fsReadMeta fs (fn ++ ".meta") with
          | ok m => exact ⟨m, rfl⟩
          | error e => simp [exOk, hmr] at hmk
        constructor
        · intro _; exact ⟨hex, hlt⟩
        · intro _
          refine ⟨[("file", .str fn), ("data", .str rec.content),
            ("source", .str "cache"), ("result", .str "ok"), ("url", m.url),
            ("code", m.code), ("content_type", m.content_type), ("id", uid)], ?_⟩
          simp [loadCachedResponse, hfn, hex, hlt, fsRead, hrec, hmrec]
      · simp [loadCachedResponse, hfn, hex, hlt]
    · have hex' : fsExists fs fn = false := by simpa using hex
      simp [loadCachedResponse, hfn, hex']
  · by_cases hr : r = ""
    · simp [browserInit, hr]
    · simp [browserInit, hr]

/-- The file system used by the C7 witness: one cache entry written at
mtime 200 with its sidecar. -/
def wfs : FS :=
  [("/c/H.GET", ⟨"CACHED", Option.none, 200⟩),
   ("/c/H.GET.meta", ⟨"", some ⟨.int 200, .str "text/html", .str "u"⟩, 200⟩)]

/-- Witness for C7: the `expire` iff evaluated at a concrete store whose
entry is 500 seconds old with a 600-second window. -/
theorem claim_C7_witness :
    (∃ s, loadCachedResponse (fun _ => "H") ⟨"expire", some "/c", 600⟩ wfs 700
        "u" "GET" (.int 5) = .ok (some s)) ↔
      (fsExists wfs "/c/H.GET" = true ∧
        (700 : Int) - fsMtime wfs "/c/H.GET" < 600) :=
  ((claim_C7 (fun _ => "H") wfs 700 "u" "GET" (.int 5) Option.none "/c"
    600).2.2.1 "/c/H.GET" rfl (fun _ => rfl))

/-- Counterexample to claim C9 as stated: with a max-pages cap of 3 and an
extracted count of 10, the code fetches pages `xrange(2, max(3, 10) - 4)` =
`[2, 3, 4, 5]`, not the pages 2 .. min(3, 10)-1 the claim predicts (which is
`[]` under the half-open reading and `[2]` under the inclusive one). -/
theorem claim_C9_counterexample :
    listParserFetch (fun _ => "") (fun _ => []) (fun _ => .str "10") (some 3)
        Option.none = .ok ([], [2, 3, 4, 5]) ∧
    claimPagesHalfOpen (some 3) 10 = [] ∧
    claimPagesInclusive (some 3) 10 = [2] ∧
    ([2, 3, 4, 5] : List Int) ≠ [] ∧ ([2, 3, 4, 5] : List Int) ≠ [2] := by
  refine ⟨rfl, rfl, rfl, by decide, by decide⟩

theorem pagesLoop_snd (getPage : Int → String)
    (extractItems : String → List String) :
    ∀ (pages : List Int) (acc : List String),
      (pagesLoop getPage extractItems Option.none pages acc).2 = pages := by
  intro pages
  induction pages with
  | nil => intro acc; rfl
  | cons p rest ih =>
      intro acc
      simp [pagesLoop, stopTruthy, ih]

/-- Claim C9 as amended: in the count-bounded path (no stop word), a falsy
extracted count fetches no page beyond page 1; a truthy count `c` fetches
exactly `xrange(2, max(maxPages, c) - 4)` when a (truthy) max-pages cap is
set, and exactly `xrange(2, c - 1)` when it is not. -/
theorem claim_C9_amended (getPage : Int → String)
    (extractItems : String → List String) (getCount : String → PyVal)
    (mp : Option Int) (ct : PyVal) (hct : getCount (getPage 1) = ct) :
    (pyTruthy ct = false →
      listParserFetch getPage extractItems getCount mp Option.none =
        .ok (extractItems (getPage 1), [])) ∧
    (∀ c, pyTruthy ct = true → pyIntConv ct = .ok c →
      ((∀ mpv, mp = some mpv → mpv ≠ 0 →
        (listParserFetch getPage extractItems getCount mp Option.none).map
            Prod.snd = .ok (xrangeI 2 (max mpv c - 4))) ∧
      (mp = Option.none →
        (listParserFetch getPage extractItems getCount mp Option.none).map
            Prod.snd = .ok (xrangeI 2 (c - 1))))) := by
  constructor
  · intro hf
    simp [listParserFetch, pagesOf, hct, hf, pagesLoop]
  · intro c ht hc
    constructor
    · intro mpv hmp hmz
      simp [listParserFetch, pagesOf, hct, ht, hc, hmp, truthyOptInt, hmz,
        pagesLoop_snd]
    · intro hmp
      simp [listParserFetch, pagesOf, hct, ht, hc, hmp, truthyOptInt,
        pagesLoop_snd]

/-- Witness for C9-amended: count 7, no cap — pages 2..5 are fetched
(`xrange(2, 6)`). -/
theorem claim_C9_amended_witness :
    (listParserFetch (fun _ => "") (fun _ => []) (fun _ => .str "7")
        Option.none Option.none).map Prod.snd = .ok (xrangeI 2 6) :=
  ((claim_C9_amended (fun _ => "") (fun _ => []) (fun _ => .str "7")
    Option.none (.str "7") rfl).2 7 rfl rfl).2 rfl

/-- A single-mode xpath field rule with no options (mode omitted). -/
def singleInfo (q : String) : FieldInfo :=
  FieldInfo.mk (some q) Option.none Option.none Option.none Option.none
    Option.none

/-- A regexp field rule with no options. -/
def reInfo (pat : String) : FieldInfo :=
  FieldInfo.mk Option.none Option.none Option.none (some pat) Option.none
    Option.none

/-- Counterexample to claim C8 as stated: a single-mode field whose query
finds ZERO matches is stored as the empty string, not as a null value. -/
theorem claim_C8_counterexample :
    extractData (fun _ => Option.none) (fun _ _ => Option.none)
        (Sum.inr (Doc.mk "<p></p>" false (fun _ => .ok [])))
        [("f", singleInfo "//x")] =
      .ok [("f", .vstr ""),
           ("lxml_handle",
             .vdoc (some (Doc.mk "<p></p>" false (fun _ => .ok []))))] ∧
    ExVal.vstr "" ≠ ExVal.vnone := by
  constructor
  · simp [extractData, extractGo, singleField, getStrS, hasRe, hasXq, Doc.xp,
      singleInfo, FieldInfo.xqOf, FieldInfo.modeOf, FieldInfo.postOf,
      FieldInfo.rePatOf, Doc.ser, String.join]
  · intro h
    exact ExVal.noConfusion h

/-- Claim C8 as amended: a single-mode query with zero matches yields the
empty string (not null); a query evaluation raising IndexError yields null;
any other query-evaluation exception propagates out of extract; a regexp
non-match yields null. -/
theorem claim_C8_amended (parse : String → Option Doc)
    (research : String → String → Option GroupOutcome) (d : Doc)
    (q pat : String) (e : PyErr) :
    (d.xp q = .ok [] →
      extractData parse research (Sum.inr d) [("f", singleInfo q)] =
        .ok [("f", .vstr ""), ("lxml_handle", .vdoc (some d))]) ∧
    (d.xp q = .error .indexError →
      extractData parse research (Sum.inr d) [("f", singleInfo q)] =
        .ok [("f", .vnone), ("lxml_handle", .vdoc (some d))]) ∧
    (d.xp q = .error e → e ≠ .indexError →
      extractData parse research (Sum.inr d) [("f", singleInfo q)] =
        .error e) ∧
    (research pat d.ser = Option.none →
      extractData parse research (Sum.inr d) [("g", reInfo pat)] =
        .ok [("g", .vnone), ("lxml_handle", .vdoc (some d))]) := by
  refine ⟨?_, ?_, ?_, ?_⟩
  · intro hz
    simp [extractData, extractGo, singleField, getStrS, hasRe, hasXq,
      singleInfo, FieldInfo.xqOf, FieldInfo.modeOf, FieldInfo.postOf,
      FieldInfo.rePatOf, hz, String.join]
  · intro hz
    simp [extractData, extractGo, singleField, hasRe, hasXq, singleInfo,
      FieldInfo.xqOf, FieldInfo.modeOf, FieldInfo.postOf, FieldInfo.rePatOf,
      hz]
  · intro hz hne
    cases e with
    | indexError => exact absurd rfl hne
    | attributeError =>
        simp [extractData, extractGo, singleField, hasRe, hasXq, singleInfo,
          FieldInfo.xqOf, FieldInfo.modeOf, FieldInfo.postOf,
          FieldInfo.rePatOf, hz]
    | typeError =>
        simp [extractData, extractGo, singleField, hasRe, hasXq, singleInfo,
          FieldInfo.xqOf, FieldInfo.modeOf, FieldInfo.postOf,
          FieldInfo.rePatOf, hz]
    | keyError =>
        simp [extractData, extractGo, singleField, hasRe, hasXq, singleInfo,
          FieldInfo.xqOf, FieldInfo.modeOf, FieldInfo.postOf,
          FieldInfo.rePatOf, hz]
    | ioError =>
        simp [extractData, extractGo, singleField, hasRe, hasXq, singleInfo,
          FieldInfo.xqOf, FieldInfo.modeOf, FieldInfo.postOf,
          FieldInfo.rePatOf, hz]
    | valueError =>
        simp [extractData, extractGo, singleField, hasRe, hasXq, singleInfo,
          FieldInfo.xqOf, FieldInfo.modeOf, FieldInfo.postOf,
          FieldInfo.rePatOf, hz]
    | nameError =>
        simp [extractData, extractGo, singleField, hasRe, hasXq, singleInfo,
          FieldInfo.xqOf, FieldInfo.modeOf, FieldInfo.postOf,
          FieldInfo.rePatOf, hz]
    | cacheConfiguration =>
        simp [extractData, extractGo, singleField, hasRe, hasXq, singleInfo,
          FieldInfo.xqOf, FieldInfo.modeOf, FieldInfo.postOf,
          FieldInfo.rePatOf, hz]
    | connectionsNumber =>
        simp [extractData, extractGo, singleField, hasRe, hasXq, singleInfo,
          FieldInfo.xqOf, FieldInfo.modeOf, FieldInfo.postOf,
          FieldInfo.rePatOf, hz]
  · intro hz
    cases d with
    | mk sd td fd =>
        simp only [Doc.ser] at hz
        simp [extractData, extractGo, regexField, hasRe, hasXq, reInfo,
          FieldInfo.xqOf, FieldInfo.modeOf, FieldInfo.postOf,
          FieldInfo.rePatOf, Doc.ser, hz]

/-- Witness for C8-amended: a query raising IndexError stores null. -/
theorem claim_C8_amended_witness :
    extractData (fun _ => Option.none) (fun _ _ => Option.none)
        (Sum.inr (Doc.mk "x" false (fun _ => .error .indexError)))
        [("f", singleInfo "//broken")] =
      .ok [("f", .vnone),
           ("lxml_handle",
             .vdoc (some (Doc.mk "x" false (fun _ => .error .indexError))))] :=
  (claim_C8_amended (fun _ => Option.none) (fun _ _ => Option.none)
    (Doc.mk "x" false (fun _ => .error .indexError)) "//broken" "" .indexError).2.1
    rfl

/-! ### Scheduler-loop invariants (for claims C4, C5, C10)

The loop functions are abstracted by a step relation `SchedStep`; every run
of `runLoop` is shown to be a reflexive-transitive chain of these steps, and
each claim's invariant is proved against the four step shapes. -/

/-- The url of a request dict as recorded by the scheduler. -/
def urlOfDict (d : PyDict) : String := pyStr (pyGetD d (.str "url") .none)

/-- The urls of requests not yet completed: still queued or in flight. -/
def pendingUrls (st : LoopState) : List String :=
  st.queue.map urlOfDict ++ st.active.map Active.url

/-- One observable transition of the scheduler: binding a queued request to
the last free handle; harvesting one finished transfer (recording a Struct
whose `id` attribute is the bound `curl.id`, and freeing the handle);
increasing the processed counter; or bailing out, which requires the quota
inequality at the current counter. -/
inductive SchedStep (percentile numUrls : Nat) : LoopState → LoopState → Prop where
  | assign : ∀ (st st' : LoopState) (d : PyDict) (qrest : List PyDict)
      (f : Nat) (frest : List Nat) (v idv : PyVal),
      st.queue = d :: qrest →
      st.freelist = f :: frest →
      pyGet d (.str "url") = .ok v →
      assignCurlId d = .ok idv →
      st'.queue = qrest →
      st'.freelist = (f :: frest).dropLast →
      st'.active = st.active ++ [⟨(f :: frest).getLast (by simp), pyStr v, idv⟩] →
      st'.results = st.results →
      st'.numProcessed = st.numProcessed →
      st'.bailout = st.bailout →
      SchedStep percentile numUrls st st'
  | harvest : ∀ (st st' : LoopState) (h : Nat) (a : Active)
      (act' : List Active) (R : RStruct),
      removeHandle h st.active = some (a, act') →
      alistGet R "id" = some a.idVal →
      st'.queue = st.queue →
      st'.freelist = st.freelist ++ [h] →
      st'.active = act' →
      st'.results = alistSet st.results a.url R →
      st'.numProcessed = st.numProcessed →
      st'.bailout = st.bailout →
      SchedStep percentile numUrls st st'
  | bump : ∀ (st st' : LoopState),
      st.numProcessed ≤ st'.numProcessed →
      st'.queue = st.queue →
      st'.freelist = st.freelist →
      st'.active = st.active →
      st'.results = st.results →
      st'.bailout = st.bailout →
      SchedStep percentile numUrls st st'
  | bail : ∀ (st st' : LoopState),
      st'.numProcessed * 100 > percentile * numUrls →
      st'.queue = st.queue →
      st'.freelist = st.freelist →
      st'.active = st.active →
      st'.results = st.results →
      st'.numProcessed = st.numProcessed →
      st'.bailout = true →
      SchedStep percentile numUrls st st'

theorem removeHandle_spec (h : Nat) :
    ∀ (l : List Active) (a : Active) (l' : List Active),
      removeHandle h l = some (a, l') → a.handle = h ∧ l.Perm (a :: l') := by
  intro l
  induction l with
  | nil => intro a l' hr; simp [removeHandle] at hr
  | cons b rest ih =>
      intro a l' hr
      by_cases hb : b.handle = h
      · simp [removeHandle, hb] at hr
        obtain ⟨rfl, rfl⟩ := hr
        exact ⟨hb, List.Perm.refl _⟩
      · simp [removeHandle, hb] at hr
        cases hrec : removeHandle h rest with
        | none => simp [hrec] at hr
        | some p =>
            obtain ⟨c, rest'⟩ := p
            simp [hrec] at hr
            obtain ⟨rfl, rfl⟩ := hr
            obtain ⟨hch, hperm⟩ := ih c rest' hrec
            exact ⟨hch, (hperm.cons b).trans (List.Perm.swap c b rest')⟩

theorem urlOfDict_eq (d : PyDict) (v : PyVal)
    (h : pyGet d (.str "url") = .ok v) : urlOfDict d = pyStr v := by
  unfold urlOfDict
  induction d with
  | nil => simp [pyGet] at h
  | cons p rest ih =>
      obtain ⟨k', v'⟩ := p
      by_cases hp : k' = PyKey.str "url"
      · simp [pyGet, hp] at h
        simp [pyGetD, hp, h]
      · simp [pyGet, hp] at h
        simp [pyGetD, hp]
        exact ih h

theorem assignCurlId_strKeyed (d : PyDict) (h : strKeyed d = true) :
    assignCurlId d = .ok .none := by
  unfold assignCurlId
  have : d.any (fun p => p.1 = PyKey.builtinId) = false := by
    rw [List.any_eq_false]
    intro p hp
    have := (List.all_eq_true.mp h) p hp
    cases hk : p.1 with
    | str s => simp [hk]
    | builtinId => rw [hk] at this; simp at this
  simp [this]

theorem alistGet_set_ne {α : Type} (m : List (String × α)) (k : String)
    (v : α) (k' : String) (h : k' ≠ k) :
    alistGet (alistSet m k v) k' = alistGet m k' := by
  induction m with
  | nil => simp [alistSet, alistGet, Ne.symm h]
  | cons q rest ih =>
      obtain ⟨a, b⟩ := q
      by_cases ha : a = k
      · subst ha
        simp [alistSet, alistGet, Ne.symm h]
      · simp only [alistSet, ha, if_false]
        by_cases ha' : a = k'
        · simp [alistGet, ha']
        · simp [alistGet, ha', ih]

theorem mem_alistSet {α : Type} (m : List (String × α)) (k : String) (v : α)
    (p : String × α) (h : p ∈ alistSet m k v) : p ∈ m ∨ p = (k, v) := by
  induction m with
  | nil => simpa [alistSet] using h
  | cons q rest ih =>
      obtain ⟨a, b⟩ := q
      by_cases ha : a = k
      · simp [alistSet, ha] at h
        rcases h with h | h
        · right; exact h
        · left; exact List.mem_cons_of_mem _ h
      · simp [alistSet, ha] at h
        rcases h with h | h
        · left; rw [h]; exact List.mem_cons_self _ _
        · rcases ih h with h' | h'
          · left; exact List.mem_cons_of_mem _ h'
          · right; exact h'

theorem inv_of_rtg (p n : Nat) (Inv : LoopState → Prop)
    (hpres : ∀ s s', SchedStep p n s s' → Inv s → Inv s')
    {st st' : LoopState} (h : Relation.ReflTransGen (SchedStep p n) st st')
    (h0 : Inv st) : Inv st' := by
  induction h with
  | refl => exact h0
  | tail _ hbc ih => exact hpres _ _ hbc ih

theorem assignGo_rtg (p n : Nat) :
    ∀ (q : List PyDict) (fl : List Nat) (act : List Active)
      (q' : List PyDict) (fl' : List Nat) (act' : List Active)
      (st : LoopState),
      st.queue = q → st.freelist = fl → st.active = act →
      assignGo q fl act = .ok (q', fl', act') →
      Relation.ReflTransGen (SchedStep p n) st
        { st with queue := q', freelist := fl', active := act' } := by
  intro q
  induction q with
  | nil =>
      intro fl act q' fl' act' st hq hf ha hgo
      simp [assignGo] at hgo
      obtain ⟨rfl, rfl, rfl⟩ := hgo
      have he : { st with
          queue := ([] : List PyDict)
          freelist := fl
          active := act } = st := by
        rw [← hq, ← hf, ← ha]
      rw [he]
  | cons d qrest ih =>
      intro fl act q' fl' act' st hq hf ha hgo
      cases fl with
      | nil =>
          simp [assignGo] at hgo
          obtain ⟨rfl, rfl, rfl⟩ := hgo
          have he : { st with
              queue := d :: qrest
              freelist := ([] : List Nat)
              active := act } = st := by
            rw [← hq, ← hf, ← ha]
          rw [he]
      | cons f frest =>
          simp only [assignGo] at hgo
          cases hu : pyGet d (.str "url") with
          | error e => rw [hu] at hgo; simp at hgo
          | ok v =>
              rw [hu] at hgo
              cases hid : assignCurlId d with
              | error e => rw [hid] at hgo; simp at hgo
              | ok idv =>
                  rw [hid] at hgo
                  simp only [exBind_ok] at hgo
                  set st1 : LoopState := { st with
                      queue := qrest
                      freelist := (f :: frest).dropLast
                      active := act ++
                        [⟨(f :: frest).getLast (by simp), pyStr v, idv⟩] }
                    with hst1
                  have hstep : SchedStep p n st st1 := by
                    refine SchedStep.assign st st1 d qrest f frest v idv hq hf
                      hu hid rfl rfl ?_ rfl rfl rfl
                    simp [hst1, ha]
                  have hrest := ih (f :: frest).dropLast
                    (act ++ [⟨(f :: frest).getLast (by simp), pyStr v, idv⟩])
                    q' fl' act' st1 rfl rfl rfl hgo
                  exact Relation.ReflTransGen.head hstep hrest

theorem assignAll_rtg (p n : Nat) (st st' : LoopState)
    (h : assignAll st = .ok st') :
    Relation.ReflTransGen (SchedStep p n) st st' := by
  unfold assignAll at h
  cases hgo : assignGo st.queue st.freelist st.active with
  | error e => rw [hgo] at h; simp at h
  | ok tr =>
      obtain ⟨q', fl', act'⟩ := tr
      rw [hgo] at h
      simp at h
      subst h
      exact assignGo_rtg p n st.queue st.freelist st.active q' fl' act' st
        rfl rfl rfl hgo

theorem processOk_rtg (md5hex : String → String)
    (decompress : String → Option String) (cfg : BrowserConfig) (now : Int)
    (p n : Nat) (st : LoopState) (h : Nat) (w : WebData) (st' : LoopState)
    (c : Nat)
    (hpr : processOk md5hex decompress cfg now st h w = .ok (st', c)) :
    Relation.ReflTransGen (SchedStep p n) st st' := by
  unfold processOk at hpr
  cases hrm : removeHandle h st.active with
  | none =>
      rw [hrm] at hpr
      simp at hpr
      rw [← hpr.1]
  | some pr =>
      obtain ⟨a, act'⟩ := pr
      rw [hrm] at hpr
      simp only [] at hpr
      cases hcr : cacheResponse md5hex cfg st.fs now a.url "GET"
          (normalizeData decompress w.body w.headers) (.int w.code) w.ctype with
      | error e => rw [hcr] at hpr; simp at hpr
      | ok pr2 =>
          obtain ⟨fs1, fileV⟩ := pr2
          rw [hcr] at hpr
          simp only [exBind_ok] at hpr
          cases hew : extraWrite md5hex cfg fs1 a.url
              (normalizeData decompress w.body w.headers) now with
          | error e => rw [hew] at hpr; simp at hpr
          | ok fs2 =>
              rw [hew] at hpr
              simp at hpr
              refine Relation.ReflTransGen.single ?_
              rw [← hpr.1]
              refine SchedStep.harvest st _ h a act' _ hrm ?_ rfl rfl rfl rfl
                rfl rfl
              rfl

theorem processOks_rtg (md5hex : String → String)
    (decompress : String → Option String) (cfg : BrowserConfig) (now : Int)
    (p n : Nat) :
    ∀ (l : List (Nat × WebData)) (st st' : LoopState) (c : Nat),
      processOks md5hex decompress cfg now st l = .ok (st', c) →
      Relation.ReflTransGen (SchedStep p n) st st' := by
  intro l
  induction l with
  | nil =>
      intro st st' c hpr
      simp [processOks] at hpr
      rw [← hpr.1]
  | cons hw rest ih =>
      intro st st' c hpr
      obtain ⟨h, w⟩ := hw
      simp only [processOks] at hpr
      cases h1 : processOk md5hex decompress cfg now st h w with
      | error e => rw [h1] at hpr; simp at hpr
      | ok pr1 =>
          obtain ⟨st1, c1⟩ := pr1
          rw [h1] at hpr
          simp only [exBind_ok] at hpr
          cases h2 : processOks md5hex decompress cfg now st1 rest with
          | error e => rw [h2] at hpr; simp at hpr
          | ok pr2 =>
              obtain ⟨st2, c2⟩ := pr2
              rw [h2] at hpr
              simp at hpr
              rw [← hpr.1]
              exact (processOk_rtg md5hex decompress cfg now p n st h w st1 c1
                h1).trans (ih st1 st2 c2 h2)

theorem processErr_rtg (p n : Nat) (st : LoopState) (h : Nat) (errno : Int)
    (errmsg : String) :
    Relation.ReflTransGen (SchedStep p n) st (processErr st h errno errmsg).1 := by
  unfold processErr
  cases hrm : removeHandle h st.active with
  | none => exact Relation.ReflTransGen.refl
  | some pr =>
      obtain ⟨a, act'⟩ := pr
      refine Relation.ReflTransGen.single ?_
      refine SchedStep.harvest st _ h a act' _ hrm ?_ rfl rfl rfl rfl rfl rfl
      simp [alistGet]

theorem processErrs_rtg (p n : Nat) :
    ∀ (l : List (Nat × Int × String)) (st : LoopState),
      Relation.ReflTransGen (SchedStep p n) st (processErrs st l).1 := by
  intro l
  induction l with
  | nil => intro st; exact Relation.ReflTransGen.refl
  | cons e rest ih =>
      intro st
      obtain ⟨h, errno, errmsg⟩ := e
      simp only [processErrs]
      exact (processErr_rtg p n st h errno errmsg).trans
        (ih (processErr st h errno errmsg).1)

theorem harvestBatches_rtg (md5hex : String → String)
    (decompress : String → Option String) (cfg : BrowserConfig) (now : Int)
    (numUrls percentile : Nat) :
    ∀ (batches : List Batch) (st st' : LoopState),
      harvestBatches md5hex decompress cfg now numUrls percentile st batches =
        .ok st' →
      Relation.ReflTransGen (SchedStep percentile numUrls) st st' := by
  intro batches
  induction batches with
  | nil =>
      intro st st' hh
      simp [harvestBatches] at hh
      rw [← hh]
  | cons b rest ih =>
      intro st st' hh
      simp only [harvestBatches] at hh
      cases h1 : processOks md5hex decompress cfg now st b.oks with
      | error e => rw [h1] at hh; simp at hh
      | ok pr1 =>
          obtain ⟨st1, c1⟩ := pr1
          rw [h1] at hh
          simp only [exBind_ok] at hh
          have hrtg1 : Relation.ReflTransGen (SchedStep percentile numUrls) st
              st1 :=
            processOks_rtg md5hex decompress cfg now percentile numUrls b.oks
              st st1 c1 h1
          have hrtg2 : Relation.ReflTransGen (SchedStep percentile numUrls) st1
              (processErrs st1 b.errs).1 :=
            processErrs_rtg percentile numUrls b.errs st1
          set st2 := (processErrs st1 b.errs).1 with hst2
          set c2 := (processErrs st1 b.errs).2 with hc2
          have hbump : SchedStep percentile numUrls st2
              { st2 with numProcessed := st2.numProcessed + c1 + c2 } :=
            SchedStep.bump st2 _ (by dsimp only; omega) rfl rfl rfl rfl rfl
          set st3 : LoopState :=
            { st2 with numProcessed := st2.numProcessed + c1 + c2 } with hst3
          by_cases hgt : numUrls ≠ 0 ∧
              st3.numProcessed * 100 > percentile * numUrls
          · rw [if_pos] at hh
            · simp at hh
              have hbail : SchedStep percentile numUrls st3
                  { st3 with bailout := true } :=
                SchedStep.bail st3 _ (by simpa using hgt.2) rfl rfl rfl rfl rfl
                  rfl
              rw [← hh]
              exact ((hrtg1.trans hrtg2).tail hbump).tail hbail
            · constructor
              · exact hgt.1
              · exact hgt.2
          · rw [if_neg] at hh
            · exact ((hrtg1.trans hrtg2).tail hbump).trans (ih st3 st' hh)
            · exact hgt

theorem runRounds_rtg (md5hex : String → String)
    (decompress : String → Option String) (cfg : BrowserConfig) (now : Int)
    (numUrls percentile : Nat) :
    ∀ (sched : List (List Batch)) (st st' : LoopState),
      runRounds md5hex decompress cfg now numUrls percentile sched st =
        .ok st' →
      Relation.ReflTransGen (SchedStep percentile numUrls) st st' := by
  intro sched
  induction sched with
  | nil =>
      intro st st' hr
      simp [runRounds] at hr
      rw [← hr]
  | cons round rest ih =>
      intro st st' hr
      simp only [runRounds] at hr
      by_cases h1 : st.numProcessed < numUrls
      · rw [if_pos h1] at hr
        by_cases h2 : st.bailout = true
        · rw [if_pos h2] at hr
          simp at hr
          rw [← hr]
        · rw [if_neg h2] at hr
          cases ha : assignAll st with
          | error e => rw [ha] at hr; simp at hr
          | ok st1 =>
              rw [ha] at hr
              simp only [exBind_ok] at hr
              cases hh : harvestBatches md5hex decompress cfg now numUrls
                  percentile st1 round with
              | error e => rw [hh] at hr; simp at hr
              | ok st2 =>
                  rw [hh] at hr
                  simp only [exBind_ok] at hr
                  exact ((assignAll_rtg percentile numUrls st st1 ha).trans
                    (harvestBatches_rtg md5hex decompress cfg now numUrls
                      percentile round st1 st2 hh)).trans (ih st2 st' hr)
      · rw [if_neg h1] at hr
        simp at hr
        rw [← hr]

theorem runLoop_rtg (md5hex : String → String)
    (decompress : String → Option String) (cfg : BrowserConfig) (now : Int)
    (queue₀ : List PyDict) (results₀ : List (String × RStruct))
    (numConnArg percentile : Nat) (fs : FS) (sched : List (List Batch))
    (st' : LoopState)
    (h : runLoop md5hex decompress cfg now queue₀ results₀ numConnArg
      percentile fs sched = .ok st') :
    Relation.ReflTransGen (SchedStep percentile queue₀.length)
      (initLoopState queue₀ results₀ (min numConnArg queue₀.length) fs) st' := by
  unfold runLoop at h
  by_cases hc : min numConnArg queue₀.length < 1
  · rw [if_pos hc] at h; simp at h
  · rw [if_neg hc] at h
    exact runRounds_rtg md5hex decompress cfg now queue₀.length percentile
      sched _ st' h

theorem perm_pop_push {α : Type} (l : List α) (hl : l ≠ []) (A : List α) :
    (l.dropLast ++ (A ++ [l.getLast hl])).Perm (l ++ A) := by
  have h2 : (l.dropLast ++ (A ++ [l.getLast hl])).Perm
      (l.dropLast ++ ([l.getLast hl] ++ A)) :=
    List.Perm.append_left l.dropLast List.perm_append_comm
  refine h2.trans ?_
  rw [← List.append_assoc, List.dropLast_append_getLast hl]

theorem pool_pres (p n : Nat) (L : List Nat) (s s' : LoopState)
    (hstep : SchedStep p n s s')
    (hinv : (s.freelist ++ s.active.map Active.handle).Perm L) :
    (s'.freelist ++ s'.active.map Active.handle).Perm L := by
  cases hstep with
  | assign d qrest f frest v idv hq hf hu hid hq' hf' ha' hr' hn' hb' =>
      rw [hf', ha']
      rw [hf] at hinv
      refine List.Perm.trans ?_ hinv
      simp only [List.map_append, List.map_cons, List.map_nil]
      exact perm_pop_push (f :: frest) (by simp) (s.active.map Active.handle)
  | harvest h a act' R hrm hid hq' hf' ha' hr' hn' hb' =>
      obtain ⟨hah, hperm⟩ := removeHandle_spec h s.active a act' hrm
      rw [hf', ha']
      rw [← hah]
      refine List.Perm.trans ?_ hinv
      have hmp : (s.active.map Active.handle).Perm
          (a.handle :: act'.map Active.handle) := hperm.map Active.handle
      rw [List.append_assoc, List.singleton_append]
      exact List.Perm.append_left _ hmp.symm
  | bump hn hq' hf' ha' hr' hb' =>
      rw [hf', ha']
      exact hinv
  | bail hgt hq' hf' ha' hr' hn' hb' =>
      rw [hf', ha']
      exact hinv

/-- Claim C5: throughout any run of the scheduler loop (any schedule, so any
reachable state), the free list and the handles of the active set partition
the fixed pool of `min(maxConnections, pending)` handles — every handle is in
exactly one of the two, none is created or destroyed — so at most that many
transfers are active and no handle is bound to two requests. -/
theorem claim_C5 (md5hex : String → String)
    (decompress : String → Option String) (cfg : BrowserConfig) (now : Int)
    (queue₀ : List PyDict) (results₀ : List (String × RStruct))
    (numConnArg percentile : Nat) (fs : FS) (sched : List (List Batch))
    (st : LoopState)
    (hrun : runLoop md5hex decompress cfg now queue₀ results₀ numConnArg
      percentile fs sched = .ok st) :
    (st.freelist ++ st.active.map Active.handle).Perm
      (List.range (min numConnArg queue₀.length)) ∧
    st.active.length ≤ min numConnArg queue₀.length ∧
    (st.active.map Active.handle).Nodup := by
  have hrtg := runLoop_rtg md5hex decompress cfg now queue₀ results₀
    numConnArg percentile fs sched st hrun
  have hinv : (st.freelist ++ st.active.map Active.handle).Perm
      (List.range (min numConnArg queue₀.length)) := by
    refine inv_of_rtg percentile queue₀.length
      (fun s => (s.freelist ++ s.active.map Active.handle).Perm
        (List.range (min numConnArg queue₀.length)))
      (fun s s' hs hi => pool_pres percentile queue₀.length _ s s' hs hi)
      hrtg ?_
    simp [initLoopState]
  refine ⟨hinv, ?_, ?_⟩
  · have hlen := hinv.length_eq
    rw [List.length_append, List.length_range] at hlen
    have := List.length_map st.active Active.handle
    omega
  · have hnd : (st.freelist ++ st.active.map Active.handle).Nodup :=
      hinv.nodup_iff.mpr (List.nodup_range _)
    exact hnd.of_append_right

theorem url_pres (p n : Nat) (s s' : LoopState) (hstep : SchedStep p n s s')
    (hinv : (pendingUrls s).Nodup ∧
      (∀ u ∈ pendingUrls s, alistGet s.results u = Option.none) ∧
      (s.bailout = true → s.numProcessed * 100 > p * n)) :
    (pendingUrls s').Nodup ∧
      (∀ u ∈ pendingUrls s', alistGet s'.results u = Option.none) ∧
      (s'.bailout = true → s'.numProcessed * 100 > p * n) := by
  obtain ⟨hnd, hfr, hbl⟩ := hinv
  cases hstep with
  | assign d qrest f frest v idv hq hf hu hid hq' hf' ha' hr' hn' hb' =>
      have hud : urlOfDict d = pyStr v := urlOfDict_eq d v hu
      have hp : (pendingUrls s').Perm (pendingUrls s) := by
        unfold pendingUrls
        rw [hq', ha', hq, List.map_append, List.map_cons, List.map_cons,
          List.map_nil, hud]
        rw [← List.append_assoc]
        exact List.perm_append_singleton _ _
      refine ⟨hp.nodup_iff.mpr hnd, ?_, ?_⟩
      · intro u hu'
        rw [hr']
        exact hfr u (hp.mem_iff.mp hu')
      · intro hb
        rw [hn']
        exact hbl (hb' ▸ hb)
  | harvest h a act' R hrm hid hq' hf' ha' hr' hn' hb' =>
      obtain ⟨hah, hperm⟩ := removeHandle_spec h s.active a act' hrm
      have hp : (pendingUrls s).Perm (a.url :: pendingUrls s') := by
        unfold pendingUrls
        rw [hq', ha']
        exact List.Perm.trans
          (List.Perm.append_left _ (hperm.map Active.url)) List.perm_middle
      have hnd' : (a.url :: pendingUrls s').Nodup := hp.nodup_iff.mp hnd
      refine ⟨hnd'.of_cons, ?_, ?_⟩
      · intro u hu'
        have hne : u ≠ a.url := by
          intro he
          exact (List.nodup_cons.mp hnd').1 (he ▸ hu')
        rw [hr', alistGet_set_ne _ _ _ _ hne]
        exact hfr u (hp.mem_iff.mpr (List.mem_cons_of_mem _ hu'))
      · intro hb
        rw [hn']
        exact hbl (hb' ▸ hb)
  | bump hn hq' hf' ha' hr' hb' =>
      have hpe : pendingUrls s' = pendingUrls s := by
        unfold pendingUrls
        rw [hq', ha']
      refine ⟨hpe ▸ hnd, ?_, ?_⟩
      · intro u hu'
        rw [hr']
        exact hfr u (hpe ▸ hu')
      · intro hb
        have := hbl (hb' ▸ hb)
        omega
  | bail hgt hq' hf' ha' hr' hn' hb' =>
      have hpe : pendingUrls s' = pendingUrls s := by
        unfold pendingUrls
        rw [hq', ha']
      refine ⟨hpe ▸ hnd, ?_, ?_⟩
      · intro u hu'
        rw [hr']
        exact hfr u (hpe ▸ hu')
      · intro _
        exact hgt

/-- Claim C4: whenever the scheduler loop stops with the quota flag set, the
completed count satisfies `processed * 100 > completionQuota * totalQueued`,
and every still-pending or still-active request's url is absent from the
results mapping (it never appears as an error entry), provided the batch's
urls are distinct and none was already a results key. -/
theorem claim_C4 (md5hex : String → String)
    (decompress : String → Option String) (cfg : BrowserConfig) (now : Int)
    (queue₀ : List PyDict) (results₀ : List (String × RStruct))
    (numConnArg percentile : Nat) (fs : FS) (sched : List (List Batch))
    (st : LoopState)
    (hrun : runLoop md5hex decompress cfg now queue₀ results₀ numConnArg
      percentile fs sched = .ok st)
    (hnodup : (queue₀.map urlOfDict).Nodup)
    (hfresh : ∀ u ∈ queue₀.map urlOfDict, alistGet results₀ u = Option.none)
    (hbail : st.bailout = true) :
    st.numProcessed * 100 > percentile * queue₀.length ∧
    ∀ u ∈ pendingUrls st, alistGet st.results u = Option.none := by
  have hrtg := runLoop_rtg md5hex decompress cfg now queue₀ results₀
    numConnArg percentile fs sched st hrun
  have hinv := inv_of_rtg percentile queue₀.length
    (fun s => (pendingUrls s).Nodup ∧
      (∀ u ∈ pendingUrls s, alistGet s.results u = Option.none) ∧
      (s.bailout = true → s.numProcessed * 100 > percentile * queue₀.length))
    (fun s s' hs hi => url_pres percentile queue₀.length s s' hs hi)
    hrtg ?_
  · exact ⟨hinv.2.2 hbail, hinv.2.1⟩
  · refine ⟨?_, ?_, ?_⟩
    · simpa [pendingUrls, initLoopState] using hnodup
    · intro u hu
      simp only [pendingUrls, initLoopState, List.map_nil,
        List.append_nil] at hu
      exact hfresh u hu
    · intro hb
      simp [initLoopState] at hb

theorem id_pres (p n : Nat) (s s' : LoopState) (hstep : SchedStep p n s s')
    (hinv : (∀ a ∈ s.active, a.idVal = PyVal.none) ∧
      (∀ d ∈ s.queue, strKeyed d = true) ∧
      (∀ pr ∈ s.results, alistGet pr.2 "source" = some (.str "web") →
        alistGet pr.2 "id" = some PyVal.none)) :
    (∀ a ∈ s'.active, a.idVal = PyVal.none) ∧
      (∀ d ∈ s'.queue, strKeyed d = true) ∧
      (∀ pr ∈ s'.results, alistGet pr.2 "source" = some (.str "web") →
        alistGet pr.2 "id" = some PyVal.none) := by
  obtain ⟨hact, hqk, hres⟩ := hinv
  cases hstep with
  | assign d qrest f frest v idv hq hf hu hid hq' hf' ha' hr' hn' hb' =>
      have hd : strKeyed d = true := hqk d (hq ▸ List.mem_cons_self d qrest)
      have hidv : idv = PyVal.none := by
        have := assignCurlId_strKeyed d hd
        rw [hid] at this
        simpa using this
      refine ⟨?_, ?_, ?_⟩
      · intro a ha2
        rw [ha'] at ha2
        rcases List.mem_append.mp ha2 with hmem | hmem
        · exact hact a hmem
        · simp at hmem
          rw [hmem]
          exact hidv
      · intro d2 hd2
        rw [hq'] at hd2
        exact hqk d2 (hq ▸ List.mem_cons_of_mem d hd2)
      · intro pr hpr
        rw [hr'] at hpr
        exact hres pr hpr
  | harvest h a act' R hrm hid hq' hf' ha' hr' hn' hb' =>
      obtain ⟨hah, hperm⟩ := removeHandle_spec h s.active a act' hrm
      have haid : a.idVal = PyVal.none :=
        hact a (hperm.mem_iff.mpr (List.mem_cons_self _ _))
      refine ⟨?_, ?_, ?_⟩
      · intro a2 ha2
        rw [ha'] at ha2
        exact hact a2 (hperm.mem_iff.mpr (List.mem_cons_of_mem _ ha2))
      · intro d2 hd2
        rw [hq'] at hd2
        exact hqk d2 hd2
      · intro pr hpr
        rw [hr'] at hpr
        rcases mem_alistSet _ _ _ _ hpr with hmem | hmem
        · exact hres pr hmem
        · intro _
          rw [hmem]
          simpa [haid] using hid
  | bump hn hq' hf' ha' hr' hb' =>
      refine ⟨?_, ?_, ?_⟩
      · intro a2 ha2; rw [ha'] at ha2; exact hact a2 ha2
      · intro d2 hd2; rw [hq'] at hd2; exact hqk d2 hd2
      · intro pr hpr; rw [hr'] at hpr; exact hres pr hpr
  | bail hgt hq' hf' ha' hr' hn' hb' =>
      refine ⟨?_, ?_, ?_⟩
      · intro a2 ha2; rw [ha'] at ha2; exact hact a2 ha2
      · intro d2 hd2; rw [hq'] at hd2; exact hqk d2 hd2
      · intro pr hpr; rw [hr'] at hpr; exact hres pr hpr

/-- Claim C10: in any run of the scheduler loop over requests given as
string-keyed dicts, every result fetched from the web carries `id = None`
(the `if id in url_data` membership test uses the Python builtin `id`, so it
never finds the `"id"` string key); a request served from cache instead
carries the caller-supplied id through (`entry.get("id", None)` is passed as
`uid` and stored verbatim). -/
theorem claim_C10 (md5hex : String → String)
    (decompress : String → Option String) (cfg : BrowserConfig) (now : Int)
    (queue₀ : List PyDict) (results₀ : List (String × RStruct))
    (numConnArg percentile : Nat) (fs : FS) (sched : List (List Batch))
    (st : LoopState)
    (hrun : runLoop md5hex decompress cfg now queue₀ results₀ numConnArg
      percentile fs sched = .ok st)
    (hkeys : ∀ d ∈ queue₀, strKeyed d = true)
    (hres₀ : ∀ pr ∈ results₀, alistGet pr.2 "source" = some (.str "web") →
      alistGet pr.2 "id" = some PyVal.none) :
    (∀ pr ∈ st.results, alistGet pr.2 "source" = some (.str "web") →
      alistGet pr.2 "id" = some PyVal.none) ∧
    (∀ (md5hex2 : String → String) (cfg2 : BrowserConfig) (fs2 : FS)
      (now2 : Int) (url2 : String) (uid : PyVal) (r : RStruct),
      loadCachedResponse md5hex2 cfg2 fs2 now2 url2 "GET" uid = .ok (some r) →
      alistGet r "id" = some uid) := by
  constructor
  · have hrtg := runLoop_rtg md5hex decompress cfg now queue₀ results₀
      numConnArg percentile fs sched st hrun
    have hinv := inv_of_rtg percentile queue₀.length
      (fun s => (∀ a ∈ s.active, a.idVal = PyVal.none) ∧
        (∀ d ∈ s.queue, strKeyed d = true) ∧
        (∀ pr ∈ s.results, alistGet pr.2 "source" = some (.str "web") →
          alistGet pr.2 "id" = some PyVal.none))
      (fun s s' hs hi => id_pres percentile queue₀.length s s' hs hi)
      hrtg ?_
    · exact hinv.2.2
    · refine ⟨?_, ?_, ?_⟩
      · intro a ha
        simp [initLoopState] at ha
      · intro d hd
        simp only [initLoopState] at hd
        exact hkeys d hd
      · intro pr hpr
        simp only [initLoopState] at hpr
        exact hres₀ pr hpr
  · intro md5hex2 cfg2 fs2 now2 url2 uid r hload
    unfold loadCachedResponse at hload
    by_cases hnev : cfg2.cacheMethod = "never"
    · rw [if_pos hnev] at hload
      simp at hload
    · rw [if_neg hnev] at hload
      cases hfn : getFilename md5hex2 cfg2.cacheRoot url2 "GET" with
      | error e => rw [hfn] at hload; simp at hload
      | ok fn =>
          rw [hfn] at hload
          simp only [exBind_ok] at hload
          have hdata : ∀ (hl : (do
              let data ← fsRead fs2 fn
              let metadata ← fsReadMeta fs2 (fn ++ ".meta")
              Except.ok (some [("file", PyVal.str fn), ("data", PyVal.str data),
                ("source", PyVal.str "cache"), ("result", PyVal.str "ok"),
                ("url", metadata.url), ("code", metadata.code),
                ("content_type", metadata.content_type), ("id", uid)]) :
              Except PyErr (Option RStruct)) = .ok (some r)),
              alistGet r "id" = some uid := by
            intro hl
            cases hrd : fsRead fs2 fn with
            | error e => rw [hrd] at hl; simp at hl
            | ok data =>
                rw [hrd] at hl
                simp only [exBind_ok] at hl
                cases hmt : fsReadMeta fs2 (fn ++ ".meta") with
                | error e => rw [hmt] at hl; simp at hl
                | ok m =>
                    rw [hmt] at hl
                    simp at hl
                    rw [← hl]
                    rfl
          split at hload
          · exact hdata hload
          · split at hload
            · exact hdata hload
            · simp at hload

/-- The web result Struct produced by the one-request witness runs. -/
def webResW : RStruct :=
  [("result", .str "ok"), ("source", .str "web"), ("content_type", .str "t"),
   ("code", .int 200), ("data", .str "B"), ("id", .none),
   ("url", .str "http://a/"), ("method", .str "GET"), ("file", .none)]

/-- Final state of the C5 witness run: one request, one handle, completed. -/
def wstC5 : LoopState :=
  ⟨[], [0], [], [("http://a/", webResW)], 1, false, []⟩

/-- Witness for C5: a concrete one-request run with a clamped pool of one
handle ends with the pool partition intact. -/
theorem claim_C5_witness :
    (wstC5.freelist ++ wstC5.active.map Active.handle).Perm
      (List.range (min 2 1)) ∧
    wstC5.active.length ≤ min 2 1 ∧
    (wstC5.active.map Active.handle).Nodup :=
  claim_C5 (fun _ => "H") (fun _ => Option.none) ⟨"never", some "/c", 600⟩ 0
    [[(PyKey.str "url", PyVal.str "http://a/")]] [] 2 100 []
    [[⟨[(0, ⟨"B", "", 200, .str "t"⟩)], []⟩]] wstC5 rfl

/-- Final state of the C4 witness run: two requests, quota 40, bailout after
the first completion with the second request still queued. -/
def wstC4 : LoopState :=
  ⟨[[(PyKey.str "url", PyVal.str "http://b/")]], [0], [],
   [("http://a/", webResW)], 1, true, []⟩

/-- Witness for C4: the quota inequality holds at the bailout state and the
dropped request's url is absent from the results mapping. -/
theorem claim_C4_witness :
    wstC4.numProcessed * 100 > 40 * 2 ∧
    ∀ u ∈ pendingUrls wstC4, alistGet wstC4.results u = Option.none :=
  claim_C4 (fun _ => "H") (fun _ => Option.none) ⟨"never", some "/c", 600⟩ 0
    [[(PyKey.str "url", PyVal.str "http://a/")],
     [(PyKey.str "url", PyVal.str "http://b/")]] [] 1 40 []
    [[⟨[(0, ⟨"B", "", 200, .str "t"⟩)], []⟩]] wstC4 rfl (by decide)
    (by decide) rfl

/-- Final state of the C10 witness run: one request that supplied `"id": 7`,
fetched from the web. -/
def wstC10 : LoopState :=
  ⟨[], [0], [], [("http://a/", webResW)], 1, false, []⟩

/-- The cache Struct of the C10 witness's cache-path conjunct. -/
def cacheResW : RStruct :=
  [("file", .str "/c/H.GET"), ("data", .str "C"), ("source", .str "cache"),
   ("result", .str "ok"), ("url", .str "u"), ("code", .int 200),
   ("content_type", .str "t"), ("id", .int 7)]

/-- Witness for C10: the web-fetched result of a request that supplied id 7
carries `id = None`, while a cache hit carries the supplied id 7 through. -/
theorem claim_C10_witness :
    alistGet webResW "id" = some PyVal.none ∧
    alistGet cacheResW "id" = some (PyVal.int 7) :=
  ⟨(claim_C10 (fun _ => "H") (fun _ => Option.none) ⟨"never", some "/c", 600⟩ 0
      [[(PyKey.str "url", PyVal.str "http://a/"),
        (PyKey.str "id", PyVal.int 7)]] [] 2 100 []
      [[⟨[(0, ⟨"B", "", 200, .str "t"⟩)], []⟩]] wstC10 rfl (by decide)
      (by decide)).1 ("http://a/", webResW) (by simp [wstC10]) rfl,
   (claim_C10 (fun _ => "H") (fun _ => Option.none) ⟨"never", some "/c", 600⟩ 0
      [[(PyKey.str "url", PyVal.str "http://a/"),
        (PyKey.str "id", PyVal.int 7)]] [] 2 100 []
      [[⟨[(0, ⟨"B", "", 200, .str "t"⟩)], []⟩]] wstC10 rfl (by decide)
      (by decide)).2 (fun _ => "H") ⟨"forever", some "/c", 600⟩
      [("/c/H.GET", ⟨"C", Option.none, 0⟩),
       ("/c/H.GET.meta", ⟨"", some ⟨.int 200, .str "t", .str "u"⟩, 0⟩)] 0 "u"
      (.int 7) cacheResW rfl⟩

end PCB
